import Mathlib

/-
Verification of the core sleep-day subsystem of the sleeping-beauty
repository (src/sleeping_beauty/core/sleep/*).

Shallow embedding conventions:
  * Python timezone-aware `datetime` instants are modelled as an integer
    number of seconds on one absolute wall-clock axis; `datetime.date()`
    becomes flooring division by 86400 (`dateOf`).  `date` values are
    modelled as the matching integer day index, so `target_day -
    timedelta(days=1)` becomes `target_day - 1`.
  * `timedelta.total_seconds()` on a difference of instants is the plain
    integer difference.
  * Integer fields of the `SleepDocument` DTO (models/oura/sleep.py) are
    `Int`.  Python `x or 0` on an `int` is the identity (it maps 0 to 0 and
    every other value to itself), and `int(x)` on an `int` is the identity;
    both are translated away where they occur on these fields.
  * A Python `datetime` object is always truthy, so the defensive
    `if not d.bedtime_start or not d.bedtime_end` / `d.bedtime_end and ...`
    checks in sleep_timeline_builder.py can never fire on `SleepDocument`
    values and are dropped in the embedding.
  * Float-valued physiology fields (average_heart_rate, average_hrv, ...)
    are carried opaquely as `Int` stand-ins; no embedded code performs any
    arithmetic on them and no claim mentions them.
  * Exceptions raised by the Python code become `Except BuildError` values.
  * Lean reserves `end`, so the `end` field of SleepStageSegment and of
    SupplementalSleepEpisode is rendered `stop`.
-/

/-- Embeds core/sleep/sleep_stage.py: `SleepStage` string enum. -/
inductive SleepStage where
  | awake
  | light
  | deep
  | rem
  deriving DecidableEq, Repr

/-- Embeds core/sleep/sleep_timeline.py: `SleepStageSegment` frozen dataclass
(fields start, end, stage; `end` is rendered `stop`). -/
structure SleepStageSegment where
  start : Int
  stop : Int
  stage : SleepStage
  deriving DecidableEq, Repr

/-- Embeds core/sleep/sleep_timeline.py: `SleepStageTimeline` frozen dataclass.
The `source` field is the literal "sleep_phase_5_min" everywhere in the code
and is omitted from the embedding; `segments` is the tuple of segments. -/
structure SleepStageTimeline where
  resolution_seconds : Int
  segments : List SleepStageSegment
  deriving DecidableEq, Repr

/-- Embeds core/sleep/supplemental_sleep_episode.py:
`SupplementalSleepEpisode` frozen dataclass (`end` rendered `stop`). -/
structure SupplementalSleepEpisode where
  start : Int
  stop : Int
  duration_seconds : Int
  deriving DecidableEq, Repr

/-- Embeds the fields of the `SleepDocument` DTO (models/oura/sleep.py) that
the core sleep subsystem reads.  Instants are integer seconds, `day` is an
integer day index, durations are integer seconds, `sleep_phase_5_min` is the
stage-code string ("" plays the role of an absent/empty string, which is the
only falsy `str`). -/
structure SleepDocument where
  id : String
  day : Int
  type : String
  bedtime_start : Int
  bedtime_end : Int
  total_sleep_duration : Int
  rem_sleep_duration : Int
  deep_sleep_duration : Int
  time_in_bed : Int
  efficiency : Int
  latency : Int
  sleep_phase_5_min : String
  deriving DecidableEq, Repr

/-- Embeds the score documents (models/oura/daily_sleep_score.py,
models/oura/daily_readiness.py) as the assembler and provider see them: an
opaque record with a numeric score.  The provider only tests these documents
for presence, and the faithful assembler never reaches the code that reads
their fields. -/
structure ScoreDoc where
  score : Int
  deriving DecidableEq, Repr

/-- Embeds core/sleep/sleep_day_snapshot.py: `SleepDaySnapshot` frozen
dataclass.  Float physiology fields are carried as opaque `Option Int`
stand-ins; no embedded code computes with them. -/
structure SleepDaySnapshot where
  day : Int
  night_start : Int
  night_end : Int
  core_sleep_seconds : Int
  time_in_bed_seconds : Int
  efficiency_pct : Int
  latency_seconds : Option Int
  rem_seconds : Int
  deep_seconds : Int
  rem_pct : Option Int
  deep_pct : Option Int
  avg_hr : Option Int
  min_hr : Option Int
  avg_hrv : Option Int
  supplemental_sleep_seconds : Int
  total_sleep_24h_seconds : Int
  sleep_score : Int
  readiness_score : Int
  timing_score : Int
  timing_label : String
  timeline : Option SleepStageTimeline
  supplemental_episodes : List SupplementalSleepEpisode
  deriving DecidableEq, Repr

/-- Fatal outcomes of a build, one constructor per distinct `raise` site
reached by the embedded code.  `selectionFailure` is the RuntimeError of
select_core_sleep (spec: SelectionFailure); `typeErrorUnexpectedKwarg` is the
Python TypeError raised at sleep_day_builder.py:38, where
build_supplemental_sleep_episodes is called with the keyword argument
`core_sleep_id` although its keyword-only parameters are `sleep_docs`,
`core_sleep` and `target_day`; the two missing-score constructors are the
RuntimeErrors of SleepDayProvider.get_snapshot (spec: MissingScoreDocument). -/
inductive BuildError where
  | selectionFailure
  | typeErrorUnexpectedKwarg
  | missingSleepScore
  | missingReadinessScore
  deriving DecidableEq, Repr

/-- Models `datetime.date()` on an instant expressed in seconds: the calendar
day index, i.e. flooring division by 86400. -/
def dateOf (t : Int) : Int := Int.fdiv t 86400

/-- Models Python `max(x :: xs, key)` (on a nonempty list; `none` for an
empty one): the FIRST element, in list order, whose key is maximal —
later elements replace the running best only on a strictly greater key. -/
def pyMaxBy {α : Type} (key : α → Int) : List α → Option α
  | [] => none
  | x :: xs => some (xs.foldl (fun best d => if key best < key d then d else best) x)

/-- Inserts an episode into a list sorted ascending by `start`, after any
episode with an equal or smaller `start` (the stable position). -/
def insertByStart (e : SupplementalSleepEpisode) :
    List SupplementalSleepEpisode → List SupplementalSleepEpisode
  | [] => [e]
  | x :: xs =>
    if x.start ≤ e.start then x :: insertByStart e xs else e :: x :: xs

/-- Models Python's stable `list.sort(key=lambda e: e.start)` as a stable
insertion sort, processing the list in its original order. -/
def pySortByStart (l : List SupplementalSleepEpisode) :
    List SupplementalSleepEpisode :=
  l.foldl (fun acc e => insertByStart e acc) []

/-- Embeds `_SLEEP_STAGE_MAP` of core/sleep/sleep_timeline_builder.py. -/
def SLEEP_STAGE_MAP (c : Char) : Option SleepStage :=
  if c = '1' then some .deep
  else if c = '2' then some .light
  else if c = '3' then some .rem
  else if c = '4' then some .awake
  else none

/-- Embeds the `for i, ch in enumerate(phase_str)` loop of
build_sleep_stage_timeline together with the final-segment close: `start` is
the anchor, `chars` the remaining characters, `i` the index of the first of
them in the whole string, `cur` the (current_stage, segment_start) pair (or
`none` before the first recognized character).  Segments are emitted in the
order the Python list `segments` receives them; the final close happens at
`start + 300 * (index after the last character)`. -/
def timelineLoop (start : Int) : List Char → Nat → Option (SleepStage × Int) →
    List SleepStageSegment
  | [], _, none => []
  | [], i, some (st, s0) => [⟨s0, start + 300 * (i : Int), st⟩]
  | c :: rest, i, cur =>
    match SLEEP_STAGE_MAP c with
    | none => timelineLoop start rest (i + 1) cur
    | some stage =>
      match cur with
      | none => timelineLoop start rest (i + 1) (some (stage, start + 300 * (i : Int)))
      | some (cst, s0) =>
        if stage = cst then
          timelineLoop start rest (i + 1) (some (cst, s0))
        else
          ⟨s0, start + 300 * (i : Int), cst⟩ ::
            timelineLoop start rest (i + 1) (some (stage, start + 300 * (i : Int)))

/-- Embeds build_sleep_stage_timeline (core/sleep/sleep_timeline_builder.py):
`None` for an absent/empty stage string, otherwise a timeline with
resolution_seconds = 300 and the segments of the scan, anchored at
bedtime_start with one 300-second bucket per character. -/
def build_sleep_stage_timeline (core_sleep : SleepDocument) :
    Option SleepStageTimeline :=
  if core_sleep.sleep_phase_5_min = "" then none
  else some ⟨300, timelineLoop core_sleep.bedtime_start
    core_sleep.sleep_phase_5_min.toList 0 none⟩

/-- Embeds `_previous_core_sleep_end` (core/sleep/sleep_timeline_builder.py):
latest bedtime_end among non-core `long_sleep` episodes ending strictly
before the core's bedtime_start; `none` when there are none. -/
def previous_core_sleep_end (core_sleep : SleepDocument)
    (sleep_docs : List SleepDocument) : Option Int :=
  let previous := sleep_docs.filter fun d =>
    d.id != core_sleep.id && d.type == "long_sleep" &&
      decide (d.bedtime_end < core_sleep.bedtime_start)
  (pyMaxBy (fun d => d.bedtime_end) previous).map (fun d => d.bedtime_end)

/-- Embeds the body of the `for d in sleep_docs` loop of
build_supplemental_sleep_episodes: `none` when one of the four `continue`
guards fires (core itself; falsy i.e. zero duration; ends after the core's
bedtime_start; starts before the known previous long-sleep end), else the
reduced episode record. -/
def suppKeep (core_sleep : SleepDocument) (prev_night_end : Option Int)
    (d : SleepDocument) : Option SupplementalSleepEpisode :=
  if d.id == core_sleep.id then none
  else if d.total_sleep_duration == 0 then none
  else if decide (core_sleep.bedtime_start < d.bedtime_end) then none
  else if (match prev_night_end with
           | some p => decide (d.bedtime_start < p)
           | none => false) then none
  else some ⟨d.bedtime_start, d.bedtime_end, d.total_sleep_duration⟩

/-- Embeds build_supplemental_sleep_episodes
(core/sleep/sleep_timeline_builder.py), called with its declared parameters
`sleep_docs`, `core_sleep`, `target_day`.  The loop keeps a non-core episode
iff its duration is nonzero (`if not (d.total_sleep_duration or 0)` skips
exactly duration 0), it ends no later than the core's bedtime_start, and it
does not start before the previous long-sleep end when one is known; the
kept episodes are then sorted ascending by start (Python's stable sort).
`target_day` is accepted and, as in the source, never used. -/
def build_supplemental_sleep_episodes (sleep_docs : List SleepDocument)
    (core_sleep : SleepDocument) (target_day : Int) :
    List SupplementalSleepEpisode :=
  pySortByStart
    (sleep_docs.filterMap
      (suppKeep core_sleep (previous_core_sleep_end core_sleep sleep_docs)))

/-- Embeds compute_supplemental_sleep_seconds
(core/sleep/sleep_day_builder.py): the sum of the durations of the episodes
whose day tag is target_day, other than the core, with positive duration. -/
def compute_supplemental_sleep_seconds (sleep_docs : List SleepDocument)
    (core_sleep_id : String) (target_day : Int) : Int :=
  let supplemental := sleep_docs.filter fun d =>
    d.day == target_day && d.id != core_sleep_id &&
      decide (0 < d.total_sleep_duration)
  (supplemental.map fun d => d.total_sleep_duration).sum

/-- Embeds select_core_sleep (core/sleep/sleep_day_builder.py): first the
midnight-crossing episodes tagged to target_day, else everything tagged to
target_day, each reduced with Python `max` keyed on total_sleep_duration;
RuntimeError (SelectionFailure) when nothing is tagged to target_day. -/
def select_core_sleep (sleep_docs : List SleepDocument) (target_day : Int) :
    Except BuildError SleepDocument :=
  match pyMaxBy (fun d => d.total_sleep_duration)
      (sleep_docs.filter fun d =>
        d.day == target_day && dateOf d.bedtime_start == target_day - 1) with
  | some best => .ok best
  | none =>
    match pyMaxBy (fun d => d.total_sleep_duration)
        (sleep_docs.filter fun d => d.day == target_day) with
    | some best => .ok best
    | none => .error .selectionFailure

/-- Models Python `round(num / den)` for integers with `den > 0`: the
quotient is formed exactly and rounded to the nearest integer, ties to the
even neighbour (CPython's round-half-even on the float quotient; the float
rounding of the quotient itself is neglected). -/
def pyRoundDiv (num den : Int) : Int :=
  let q := Int.fdiv num den
  let r := num - q * den
  if 2 * r < den then q
  else if den < 2 * r then q + 1
  else if Even q then q else q + 1

/-- Embeds the rem_pct / deep_pct expressions of build_sleep_day_snapshot
(sleep_day_builder.py lines 56-62): `round(100 * stage_seconds / core_total)`
guarded by `core_total > 0`, else `None`. -/
def snapshot_rem_deep_pct (core_total rem_seconds deep_seconds : Int) :
    Option Int × Option Int :=
  (if 0 < core_total then some (pyRoundDiv (100 * rem_seconds) core_total) else none,
   if 0 < core_total then some (pyRoundDiv (100 * deep_seconds) core_total) else none)

/-- Embeds the timeline invariant block of build_sleep_day_snapshot
(sleep_day_builder.py lines 79-90): `true` iff the RuntimeError is raised,
i.e. iff a timeline with at least one segment exists and
delta = last segment end - night_end is < 0 or >= 300.  An absent timeline
(`None` is falsy) or an empty segment tuple (empty tuple is falsy) skips the
check. -/
def timeline_invariant_check (night_end : Int)
    (timeline : Option SleepStageTimeline) : Bool :=
  match timeline with
  | none => false
  | some tl =>
    match tl.segments.getLast? with
    | none => false
    | some seg =>
      let delta := seg.stop - night_end
      decide (delta < 0) || decide (300 ≤ delta)

/-- Embeds build_sleep_day_snapshot (core/sleep/sleep_day_builder.py) as it
executes: select_core_sleep runs first and its failure propagates; the very
next statement (line 38) calls build_supplemental_sleep_episodes with the
keyword argument `core_sleep_id=core_sleep.id`, but that function's
keyword-only parameters are `sleep_docs`, `core_sleep` and `target_day`
(sleep_timeline_builder.py line 110), so Python raises
`TypeError: ... got an unexpected keyword argument 'core_sleep_id'` before
any later statement (supplemental seconds, percentages, timeline build,
timeline invariant, snapshot construction) can execute. -/
def build_sleep_day_snapshot (target_day : Int)
    (sleep_docs : List SleepDocument) (daily_sleep readiness : ScoreDoc) :
    Except BuildError SleepDaySnapshot :=
  match select_core_sleep sleep_docs target_day with
  | .error e => .error e
  | .ok _core_sleep => .error .typeErrorUnexpectedKwarg

/-- Embeds SleepDayProvider.get_snapshot (core/sleep/sleep_day_provider.py)
with the three fetched streams materialised as lists: an empty episode
window returns `none` (the explicit no-data result); each score loop `async
for doc: x = doc` keeps the LAST yielded document and only `if not x` — i.e.
only an empty stream — raises the missing-score RuntimeError; otherwise the
assembler's result (or error) is returned unchanged. -/
def get_snapshot (target_day : Int) (sleep_docs : List SleepDocument)
    (sleep_score_docs readiness_docs : List ScoreDoc) :
    Except BuildError (Option SleepDaySnapshot) :=
  if sleep_docs = [] then .ok none
  else
    match sleep_score_docs.getLast? with
    | none => .error .missingSleepScore
    | some daily_sleep =>
      match readiness_docs.getLast? with
      | none => .error .missingReadinessScore
      | some readiness =>
        (build_sleep_day_snapshot target_day sleep_docs daily_sleep
          readiness).map some

/-- Expresses that a segment list runs the interval from `a` to `b` without
gap or overlap: the first segment starts at `a`, each segment ends where the
next one starts, and the last segment ends at `b` (for the empty list,
`a = b`).  This is the "ordered and contiguous" shape of the spec. -/
def segsChain (a : Int) : List SleepStageSegment → Int → Prop
  | [], b => a = b
  | s :: rest, b => s.start = a ∧ segsChain s.stop rest b

instance (a b : Int) (l : List SleepStageSegment) :
    Decidable (segsChain a l b) := by
  induction l generalizing a with
  | nil => exact inferInstanceAs (Decidable (a = b))
  | cons s rest ih =>
    exact @instDecidableAnd _ _ _ (ih s.stop)

/-- States that a segment spans the whole 5-minute bucket with index `k`
counted from `anchor`. -/
def coversBucket (anchor : Int) (k : Nat) (seg : SleepStageSegment) : Prop :=
  seg.start ≤ anchor + 300 * (k : Int) ∧ anchor + 300 * ((k : Int) + 1) ≤ seg.stop

instance (anchor : Int) (k : Nat) (seg : SleepStageSegment) :
    Decidable (coversBucket anchor k seg) :=
  inferInstanceAs (Decidable (_ ∧ _))

/-- Qualification predicate of compute_supplemental_sleep_seconds: day tag
equals target_day, not the core, positive duration. -/
def dayTagQualifies (d : SleepDocument) (core_sleep_id : String)
    (target_day : Int) : Prop :=
  d.day = target_day ∧ d.id ≠ core_sleep_id ∧ 0 < d.total_sleep_duration

instance (d : SleepDocument) (core_sleep_id : String) (target_day : Int) :
    Decidable (dayTagQualifies d core_sleep_id target_day) :=
  inferInstanceAs (Decidable (_ ∧ _ ∧ _))

/-- Qualification predicate of build_supplemental_sleep_episodes: not the
core, nonzero duration, ends no later than the core's bedtime_start, and not
before the previous long-sleep window end when one exists. -/
def supplementalQualifies (d : SleepDocument) (core_sleep : SleepDocument)
    (sleep_docs : List SleepDocument) : Prop :=
  d.id ≠ core_sleep.id ∧ d.total_sleep_duration ≠ 0 ∧
    d.bedtime_end ≤ core_sleep.bedtime_start ∧
    ∀ p, previous_core_sleep_end core_sleep sleep_docs = some p →
      p ≤ d.bedtime_start

/-- States, in the words of the amended C2, the day-tag aggregate: the sum
over all episodes of the duration when the episode's day tag is target_day,
it is not the core and its duration is positive, else 0. -/
def supplementalSecondsOfDayTag (sleep_docs : List SleepDocument)
    (core_sleep_id : String) (target_day : Int) : Int :=
  (sleep_docs.map fun d =>
    if dayTagQualifies d core_sleep_id target_day
    then d.total_sleep_duration else 0).sum

/-
Concrete inputs used by the counterexamples, code-bug evaluations and
witnesses.  Instants: day `n` spans seconds [86400*n, 86400*(n+1));
79200 = 22:00 of day 0, 108000 = 06:00 of day 1, 133200 = 13:00 of day 1,
135000 = 13:30 of day 1.
-/

/-- Scenario B core episode: 22:00 day 0 → 06:00 day 1, tagged to day 1,
total_sleep_duration 28800, rem 7200, deep 5760, no stage string. -/
def epCore : SleepDocument :=
  ⟨"c", 1, "long_sleep", 79200, 108000, 28800, 7200, 5760, 30000, 95, 600, ""⟩

/-- Scenario B nap episode: 13:00 → 13:30 of day 1, tagged to day 1,
total_sleep_duration 1800. -/
def epNap : SleepDocument :=
  ⟨"n", 1, "rest", 133200, 135000, 1800, 0, 0, 2000, 90, 0, ""⟩

/-- Scenario B episode window. -/
def scenarioB : List SleepDocument := [epCore, epNap]

/-- An all-recognized stage string episode (Scenario A shape): 16 buckets
"1111222233334444" anchored at 22:00 of day 0. -/
def epStages : SleepDocument :=
  ⟨"a", 1, "long_sleep", 79200, 84000, 4500, 0, 0, 0, 0, 0, "1111222233334444"⟩

/-- An episode whose stage string "1x1" has an unrecognized middle
character. -/
def epSkip : SleepDocument :=
  ⟨"x", 1, "long_sleep", 79200, 80100, 900, 0, 0, 0, 0, 0, "1x1"⟩

/-- An episode whose nonempty stage string "xyz" has no recognized
character. -/
def epUnrec : SleepDocument :=
  ⟨"u", 1, "long_sleep", 79200, 80100, 900, 0, 0, 0, 0, 0, "xyz"⟩

/-- Tie-break probe: same day tag (10), same duration (100), bedtime_start
856800 (later) — crosses midnight into day 10. -/
def tieLate : SleepDocument :=
  ⟨"a", 10, "long_sleep", 856800, 885600, 100, 0, 0, 0, 0, 0, ""⟩

/-- Tie-break probe: same day tag and duration as tieLate but earlier
bedtime_start 853200 and lower id would not matter — crosses midnight into
day 10. -/
def tieEarly : SleepDocument :=
  ⟨"b", 10, "long_sleep", 853200, 884000, 100, 0, 0, 0, 0, 0, ""⟩

/-- Same-day, non-crossing episode tagged to day 5 starting on day 5. -/
def sameDayOnly : SleepDocument :=
  ⟨"s", 5, "long_sleep", 433000, 440000, 3600, 0, 0, 0, 0, 0, ""⟩

/-- Scenario C probe with delta 270: stage string "1111" ends the timeline
at 79200 + 1200 = 80400; bedtime_end 80130 gives delta 270. -/
def epDelta270 : SleepDocument :=
  ⟨"d270", 1, "long_sleep", 79200, 80130, 1100, 0, 0, 0, 0, 0, "1111"⟩

/-- Scenario C probe with delta 301: same timeline end 80400; bedtime_end
80099 gives delta 301. -/
def epDelta301 : SleepDocument :=
  ⟨"d301", 1, "long_sleep", 79200, 80099, 1100, 0, 0, 0, 0, 0, "1111"⟩

/-- An afternoon-before nap: 50000 → 52000 (day 0 wall clock), tagged to
day 1, duration 1200 — ends before epCore's bedtime_start, so it qualifies
under both the day-tag aggregate and the episode-list guards. -/
def preNap : SleepDocument :=
  ⟨"p", 1, "rest", 50000, 52000, 1200, 0, 0, 0, 0, 0, ""⟩

/-
Helper lemmas.
-/

/-- Characterizes Python `max` on a nonempty list: the result is the first
element, in list order, attaining the maximal key — every element before it
has a strictly smaller key and every element at all has a key at most its
key. -/
theorem pyMaxBy_first_max {α : Type} (key : α → Int) (x : α) (xs : List α) :
    ∃ m l₁ l₂, pyMaxBy key (x :: xs) = some m ∧ x :: xs = l₁ ++ m :: l₂ ∧
      (∀ y ∈ l₁, key y < key m) ∧ (∀ y ∈ x :: xs, key y ≤ key m) := by
  induction xs generalizing x with
  | nil =>
    refine ⟨x, [], [], rfl, rfl, by simp, ?_⟩
    intro y hy
    simp only [List.mem_singleton] at hy
    simp [hy]
  | cons d ds ih =>
    have hstep : pyMaxBy key (x :: d :: ds) =
        pyMaxBy key ((if key x < key d then d else x) :: ds) := by
      simp [pyMaxBy, List.foldl_cons]
    by_cases h : key x < key d
    · obtain ⟨m, l₁, l₂, hm, hdec, hlt, hle⟩ := ih d
      rw [if_pos h] at hstep
      have hdm : key d ≤ key m := hle d (List.mem_cons_self d ds)
      refine ⟨m, x :: l₁, l₂, hstep.trans hm, by simpa using hdec, ?_, ?_⟩
      · intro y hy
        rcases List.mem_cons.mp hy with hy | hy
        · subst hy; exact lt_of_lt_of_le h hdm
        · exact hlt y hy
      · intro y hy
        rcases List.mem_cons.mp hy with hy | hy
        · subst hy; exact le_of_lt (lt_of_lt_of_le h hdm)
        · exact hle y hy
    · obtain ⟨m, l₁, l₂, hm, hdec, hlt, hle⟩ := ih x
      rw [if_neg h] at hstep
      have hdle : key d ≤ key x := le_of_not_lt h
      have hxm : key x ≤ key m := hle x (List.mem_cons_self x ds)
      cases l₁ with
      | nil =>
        simp only [List.nil_append] at hdec
        have hmx : m = x := by injection hdec with h1 _; exact h1.symm
        refine ⟨m, [], d :: ds, hstep.trans hm, by simp [hmx], by simp, ?_⟩
        intro y hy
        rcases List.mem_cons.mp hy with hy | hy
        · subst hy; exact hxm
        · rcases List.mem_cons.mp hy with hy | hy
          · subst hy; exact le_trans hdle hxm
          · exact hle y (List.mem_cons_of_mem x hy)
      | cons z l₁' =>
        have hpair : x = z ∧ ds = l₁' ++ m :: l₂ := by
          simpa only [List.cons_append, List.cons.injEq] using hdec
        have hzx : z = x := hpair.1.symm
        have hds : ds = l₁' ++ m :: l₂ := hpair.2
        have hxlt : key x < key m := by
          have := hlt z (List.mem_cons_self z l₁')
          rwa [hzx] at this
        refine ⟨m, x :: d :: l₁', l₂, hstep.trans hm, by simp [hds], ?_, ?_⟩
        · intro y hy
          rcases List.mem_cons.mp hy with hy | hy
          · subst hy; exact hxlt
          · rcases List.mem_cons.mp hy with hy | hy
            · subst hy; exact lt_of_le_of_lt hdle hxlt
            · exact hlt y (List.mem_cons_of_mem z hy)
        · intro y hy
          rcases List.mem_cons.mp hy with hy | hy
          · subst hy; exact hxm
          · rcases List.mem_cons.mp hy with hy | hy
            · subst hy; exact le_trans hdle hxm
            · exact hle y (List.mem_cons_of_mem x (hds ▸ hy))

/-- Sum of the segment durations of a chained segment list is the length of
the interval it runs. -/
theorem segsChain_sum (l : List SleepStageSegment) :
    ∀ a b, segsChain a l b → (l.map fun s => s.stop - s.start).sum = b - a := by
  induction l with
  | nil =>
    intro a b h
    simp only [segsChain] at h
    simp [h]
  | cons s rest ih =>
    intro a b h
    obtain ⟨hs, hrest⟩ := h
    have := ih s.stop b hrest
    simp only [List.map_cons, List.sum_cons, this, hs]
    ring

/-- The last segment of a nonempty chained segment list ends at the right
endpoint of the interval. -/
theorem segsChain_getLast (l : List SleepStageSegment) :
    ∀ a b, segsChain a l b → ∀ hne : l ≠ [], (l.getLast hne).stop = b := by
  induction l with
  | nil => intro a b _ hne; exact absurd rfl hne
  | cons s rest ih =>
    intro a b h hne
    obtain ⟨hs, hrest⟩ := h
    cases rest with
    | nil =>
      simp only [segsChain] at hrest
      simp [List.getLast, hrest]
    | cons t ts =>
      have := ih s.stop b hrest (by simp)
      simpa [List.getLast_cons] using this

/-- A chained segment list over a nontrivial interval is nonempty. -/
theorem segsChain_ne_nil {a b : Int} {l : List SleepStageSegment}
    (h : segsChain a l b) (hab : a ≠ b) : l ≠ [] := by
  intro hnil
  subst hnil
  simp only [segsChain] at h
  exact hab h

/-- The first segment of a chained segment list starts at the left endpoint
of the interval. -/
theorem segsChain_head {a b : Int} {s : SleepStageSegment}
    {rest : List SleepStageSegment} (h : segsChain a (s :: rest) b) :
    s.start = a := h.1

/-- A chained segment list is contiguous: every segment ends where the next
one starts. -/
theorem segsChain_chain' (l : List SleepStageSegment) :
    ∀ a b, segsChain a l b → l.Chain' (fun s t => s.stop = t.start) := by
  induction l with
  | nil => intro a b _; simp
  | cons s rest ih =>
    intro a b h
    obtain ⟨hs, hrest⟩ := h
    cases rest with
    | nil => simp
    | cons t ts =>
      exact List.chain'_cons.mpr ⟨hrest.1.symm, ih s.stop b hrest⟩

/-- Loop invariant of the timeline scan: once a run is open at `s0` with
index `i` remaining characters `chars`, the emitted segments chain without
gap from `s0` to the close position `start + 300 * (i + chars.length)` —
regardless of which characters are recognized. -/
theorem timelineLoop_chain (start : Int) (chars : List Char) :
    ∀ (i : Nat) (st : SleepStage) (s0 : Int),
      segsChain s0 (timelineLoop start chars i (some (st, s0)))
        (start + 300 * ((i : Int) + chars.length)) := by
  induction chars with
  | nil =>
    intro i st s0
    refine ⟨rfl, ?_⟩
    simp only [segsChain, List.length_nil]
    push_cast
    ring
  | cons c rest ih =>
    intro i st s0
    have harith : start + 300 * ((i : Int) + (c :: rest).length) =
        start + 300 * (((i + 1 : Nat) : Int) + rest.length) := by
      push_cast [List.length_cons]
      ring
    rw [harith]
    cases hmap : SLEEP_STAGE_MAP c with
    | none =>
      simp only [timelineLoop, hmap]
      exact ih (i + 1) st s0
    | some stage =>
      by_cases hst : stage = st
      · simp only [timelineLoop, hmap, hst, if_pos rfl]
        exact ih (i + 1) st s0
      · simp only [timelineLoop, hmap, if_neg hst]
        exact ⟨rfl, ih (i + 1) stage (start + 300 * (i : Int))⟩

/-- Loop invariant locating segment left boundaries: every emitted segment
either starts at `start + 300 * k` for the absolute index `k` of a
recognized character whose stage is the segment's stage, or is the run that
was already open when the loop was entered. -/
theorem timelineLoop_seg_start (start : Int) (chars : List Char) :
    ∀ (i : Nat) (cur : Option (SleepStage × Int)) (seg : SleepStageSegment),
      seg ∈ timelineLoop start chars i cur →
      (∃ k, ∃ hk : k < chars.length,
        seg.start = start + 300 * ((i : Int) + k) ∧
        SLEEP_STAGE_MAP (chars.get ⟨k, hk⟩) = some seg.stage) ∨
      (∃ st s0, cur = some (st, s0) ∧ seg.start = s0 ∧ seg.stage = st) := by
  induction chars with
  | nil =>
    intro i cur seg hseg
    match cur with
    | none => simp [timelineLoop] at hseg
    | some (st, s0) =>
      simp only [timelineLoop, List.mem_singleton] at hseg
      subst hseg
      exact Or.inr ⟨st, s0, rfl, rfl, rfl⟩
  | cons c rest ih =>
    intro i cur seg hseg
    have lift : ∀ (k : Nat) (hk : k < rest.length),
        seg.start = start + 300 * (((i + 1 : Nat) : Int) + k) ∧
          SLEEP_STAGE_MAP (rest.get ⟨k, hk⟩) = some seg.stage →
        (∃ k', ∃ hk' : k' < (c :: rest).length,
          seg.start = start + 300 * ((i : Int) + k') ∧
          SLEEP_STAGE_MAP ((c :: rest).get ⟨k', hk'⟩) = some seg.stage) := by
      intro k hk ⟨h1, h2⟩
      refine ⟨k + 1, by simpa using Nat.succ_lt_succ hk, ?_, ?_⟩
      · rw [h1]; push_cast; ring
      · simpa using h2
    cases hmap : SLEEP_STAGE_MAP c with
    | none =>
      simp only [timelineLoop, hmap] at hseg
      rcases ih (i + 1) cur seg hseg with ⟨k, hk, h1, h2⟩ | hr
      · exact Or.inl (lift k hk ⟨h1, h2⟩)
      · exact Or.inr hr
    | some stage =>
      match cur with
      | none =>
        simp only [timelineLoop, hmap] at hseg
        rcases ih (i + 1) _ seg hseg with ⟨k, hk, h1, h2⟩ | ⟨st, s0, hcur, h1, h2⟩
        · exact Or.inl (lift k hk ⟨h1, h2⟩)
        · have heq : stage = st ∧ start + 300 * (i : Int) = s0 := by
            have h' := Option.some.inj hcur
            rwa [Prod.mk.injEq] at h'
          refine Or.inl ⟨0, by simp, ?_, ?_⟩
          · rw [h1, ← heq.2]; push_cast; ring
          · simp only [List.get]
            rw [hmap, h2, ← heq.1]
      | some (cst, s0) =>
        by_cases hst : stage = cst
        · simp only [timelineLoop, hmap, if_pos hst] at hseg
          rcases ih (i + 1) _ seg hseg with ⟨k, hk, h1, h2⟩ | ⟨st', s0', hcur, h1, h2⟩
          · exact Or.inl (lift k hk ⟨h1, h2⟩)
          · have heq : cst = st' ∧ s0 = s0' := by
              have h' := Option.some.inj hcur
              rwa [Prod.mk.injEq] at h'
            exact Or.inr ⟨cst, s0, rfl, by rw [h1, ← heq.2], by rw [h2, ← heq.1]⟩
        · simp only [timelineLoop, hmap, if_neg hst, List.mem_cons] at hseg
          rcases hseg with hseg | hseg
          · subst hseg
            exact Or.inr ⟨cst, s0, rfl, rfl, rfl⟩
          · rcases ih (i + 1) _ seg hseg with ⟨k, hk, h1, h2⟩ | ⟨st', s0', hcur, h1, h2⟩
            · exact Or.inl (lift k hk ⟨h1, h2⟩)
            · have heq : stage = st' ∧ start + 300 * (i : Int) = s0' := by
                have h' := Option.some.inj hcur
                rwa [Prod.mk.injEq] at h'
              refine Or.inl ⟨0, by simp, ?_, ?_⟩
              · rw [h1, ← heq.2]; push_cast; ring
              · simp only [List.get]
                rw [hmap, h2, ← heq.1]

/-- When at least one remaining character is recognized and no run is open,
the emitted segments chain from the position of the first recognized
character to the close position `start + 300 * (i + chars.length)`. -/
theorem timelineLoop_none_chain (start : Int) (chars : List Char) :
    ∀ i : Nat, (∃ c ∈ chars, (SLEEP_STAGE_MAP c).isSome) →
      ∃ j, j < chars.length ∧
        segsChain (start + 300 * ((i : Int) + j))
          (timelineLoop start chars i none)
          (start + 300 * ((i : Int) + chars.length)) := by
  induction chars with
  | nil =>
    intro i h
    simp at h
  | cons c rest ih =>
    intro i h
    cases hmap : SLEEP_STAGE_MAP c with
    | some stage =>
      refine ⟨0, by simp, ?_⟩
      simp only [timelineLoop, hmap]
      have := timelineLoop_chain start rest (i + 1) stage (start + 300 * (i : Int))
      have harith0 : start + 300 * ((i : Int) + (0 : Nat)) = start + 300 * (i : Int) := by
        push_cast; ring
      have harith1 : start + 300 * (((i + 1 : Nat) : Int) + rest.length) =
          start + 300 * ((i : Int) + (c :: rest).length) := by
        push_cast [List.length_cons]; ring
      rw [harith0, ← harith1]
      exact this
    | none =>
      have hrest : ∃ c' ∈ rest, (SLEEP_STAGE_MAP c').isSome := by
        rcases h with ⟨c', hc', hrec⟩
        rcases List.mem_cons.mp hc' with rfl | hc'
        · rw [hmap] at hrec; simp at hrec
        · exact ⟨c', hc', hrec⟩
      obtain ⟨j, hj, hchain⟩ := ih (i + 1) hrest
      refine ⟨j + 1, by simpa using Nat.succ_lt_succ hj, ?_⟩
      simp only [timelineLoop, hmap]
      have harith0 : start + 300 * ((i : Int) + ((j : Nat) + 1 : Nat)) =
          start + 300 * (((i + 1 : Nat) : Int) + j) := by
        push_cast; ring
      have harith1 : start + 300 * ((i : Int) + (c :: rest).length) =
          start + 300 * (((i + 1 : Nat) : Int) + rest.length) := by
        push_cast [List.length_cons]; ring
      rw [harith0, harith1]
      exact hchain

/-- A string different from "" has a nonempty character list. -/
theorem toList_ne_nil_of_ne_empty (s : String) (h : s ≠ "") :
    s.toList ≠ [] := by
  cases s with
  | mk data =>
    cases data with
    | nil => exact absurd rfl h
    | cons c cs => simp [String.toList]

/-- Inserting into the stable sort accumulator is a permutation of
prepending. -/
theorem insertByStart_perm (e : SupplementalSleepEpisode)
    (l : List SupplementalSleepEpisode) :
    (insertByStart e l).Perm (e :: l) := by
  induction l with
  | nil => simp [insertByStart]
  | cons x xs ih =>
    by_cases h : x.start ≤ e.start
    · simp only [insertByStart, if_pos h]
      exact (List.Perm.cons x ih).trans (List.Perm.swap e x xs)
    · simp [insertByStart, if_neg h]

/-- The stable sort is a permutation of its input. -/
theorem pySortByStart_perm (l : List SupplementalSleepEpisode) :
    (pySortByStart l).Perm l := by
  suffices h : ∀ acc, ((l.foldl (fun acc e => insertByStart e acc) acc)).Perm (l ++ acc) by
    simpa using h []
  induction l with
  | nil => intro acc; simp
  | cons c cs ih =>
    intro acc
    simp only [List.foldl_cons, List.cons_append]
    exact ((ih (insertByStart c acc)).trans
      (List.Perm.append_left cs (insertByStart_perm c acc))).trans
      List.perm_middle

/-- A loop body that keeps an episode: all four guards pass. -/
theorem suppKeep_eq_some (core_sleep : SleepDocument) (prev : Option Int)
    (d : SleepDocument) (h1 : d.id ≠ core_sleep.id)
    (h2 : d.total_sleep_duration ≠ 0)
    (h3 : d.bedtime_end ≤ core_sleep.bedtime_start)
    (h4 : ∀ p, prev = some p → p ≤ d.bedtime_start) :
    suppKeep core_sleep prev d =
      some ⟨d.bedtime_start, d.bedtime_end, d.total_sleep_duration⟩ := by
  unfold suppKeep
  rw [if_neg (by simp [h1]), if_neg (by simp [h2]),
    if_neg (by simp [not_lt.mpr h3])]
  cases prev with
  | none => simp
  | some p =>
    rw [if_neg ?_]
    simp only [decide_eq_true_eq]
    exact not_lt.mpr (h4 p rfl)

/-- A loop body that drops an episode: some guard fires. -/
theorem suppKeep_eq_none (core_sleep : SleepDocument) (prev : Option Int)
    (d : SleepDocument)
    (h : ¬(d.id ≠ core_sleep.id ∧ d.total_sleep_duration ≠ 0 ∧
      d.bedtime_end ≤ core_sleep.bedtime_start ∧
      ∀ p, prev = some p → p ≤ d.bedtime_start)) :
    suppKeep core_sleep prev d = none := by
  unfold suppKeep
  by_cases h1 : d.id = core_sleep.id
  · simp [h1]
  · rw [if_neg (by simp [h1])]
    by_cases h2 : d.total_sleep_duration = 0
    · simp [h2]
    · rw [if_neg (by simp [h2])]
      by_cases h3 : core_sleep.bedtime_start < d.bedtime_end
      · simp [h3]
      · rw [if_neg (by simp [h3])]
        cases prev with
        | none =>
          exact absurd ⟨h1, h2, not_lt.mp h3, fun p hp => by cases hp⟩ h
        | some p =>
          by_cases h4 : d.bedtime_start < p
          · simp [h4]
          · exact absurd ⟨h1, h2, not_lt.mp h3,
              fun q hq => by cases hq; exact not_lt.mp h4⟩ h

/-- The day-based aggregate computed by compute_supplemental_sleep_seconds
coincides with the spec-style map-and-sum formulation. -/
theorem compute_eq_dayTagSum (sleep_docs : List SleepDocument)
    (core_sleep_id : String) (target_day : Int) :
    compute_supplemental_sleep_seconds sleep_docs core_sleep_id target_day =
      supplementalSecondsOfDayTag sleep_docs core_sleep_id target_day := by
  unfold compute_supplemental_sleep_seconds supplementalSecondsOfDayTag
  induction sleep_docs with
  | nil => rfl
  | cons d ds ih =>
    simp only [List.map_cons, List.sum_cons]
    by_cases h : dayTagQualifies d core_sleep_id target_day
    · obtain ⟨h1, h2, h3⟩ := h
      have hb : (d.day == target_day && d.id != core_sleep_id &&
          decide (0 < d.total_sleep_duration)) = true := by
        simp [h1, h2, h3]
      rw [List.filter_cons, if_pos hb,
        List.map_cons, List.sum_cons, if_pos ⟨h1, h2, h3⟩, ih]
    · have hb : ¬(d.day == target_day && d.id != core_sleep_id &&
          decide (0 < d.total_sleep_duration)) = true := by
        intro hcontra
        simp only [Bool.and_eq_true, beq_iff_eq, bne_iff_ne,
          decide_eq_true_eq] at hcontra
        exact h ⟨hcontra.1.1, hcontra.1.2, hcontra.2⟩
      rw [List.filter_cons, if_neg hb, if_neg h, ih]
      ring

/-- When the day-tag predicate and the loop guards of
build_supplemental_sleep_episodes agree on every episode of a list, the sum
of the kept durations equals the day-based aggregate over that list. -/
theorem filterMap_suppKeep_sum (core_sleep : SleepDocument)
    (sleep_docs : List SleepDocument) (target_day : Int) :
    ∀ l : List SleepDocument,
      (∀ d ∈ l, (dayTagQualifies d core_sleep.id target_day ↔
        supplementalQualifies d core_sleep sleep_docs)) →
      ((l.filterMap
          (suppKeep core_sleep (previous_core_sleep_end core_sleep sleep_docs))).map
        fun e => e.duration_seconds).sum =
        supplementalSecondsOfDayTag l core_sleep.id target_day := by
  intro l
  induction l with
  | nil => intro _; rfl
  | cons d ds ih =>
    intro hiff
    have hd := hiff d (List.mem_cons_self d ds)
    have hds := fun x hx => hiff x (List.mem_cons_of_mem d hx)
    unfold supplementalSecondsOfDayTag
    simp only [List.map_cons, List.sum_cons]
    by_cases h : dayTagQualifies d core_sleep.id target_day
    · obtain ⟨q1, q2, q3, q4⟩ := hd.mp h
      rw [List.filterMap_cons_some (suppKeep_eq_some _ _ _ q1 q2 q3 q4),
        List.map_cons, List.sum_cons, if_pos h]
      have := ih hds
      unfold supplementalSecondsOfDayTag at this
      rw [this]
    · rw [List.filterMap_cons_none (suppKeep_eq_none _ _ _ (fun hq => h (hd.mpr hq))),
        if_neg h]
      have := ih hds
      unfold supplementalSecondsOfDayTag at this
      rw [this]
      ring

/-- A fully unrecognized character list emits no segments. -/
theorem timelineLoop_all_unrec_nil (start : Int) (chars : List Char) :
    ∀ i : Nat, (∀ c ∈ chars, SLEEP_STAGE_MAP c = none) →
      timelineLoop start chars i none = [] := by
  induction chars with
  | nil => intro i _; rfl
  | cons c rest ih =>
    intro i h
    have hc := h c (List.mem_cons_self c rest)
    simp only [timelineLoop, hc]
    exact ih (i + 1) (fun x hx => h x (List.mem_cons_of_mem c hx))

/-- select_core_sleep fails only with the selection failure. -/
theorem select_core_sleep_error_eq (sleep_docs : List SleepDocument)
    (target_day : Int) (e : BuildError)
    (h : select_core_sleep sleep_docs target_day = .error e) :
    e = .selectionFailure := by
  unfold select_core_sleep at h
  cases h1 : pyMaxBy (fun d => d.total_sleep_duration)
      (sleep_docs.filter fun d =>
        d.day == target_day && dateOf d.bedtime_start == target_day - 1) with
  | some best => rw [h1] at h; cases h
  | none =>
    rw [h1] at h
    cases h2 : pyMaxBy (fun d => d.total_sleep_duration)
        (sleep_docs.filter fun d => d.day == target_day) with
    | some best => rw [h2] at h; cases h
    | none =>
      rw [h2] at h
      cases h
      rfl

/-- The faithful assembler fails only with the selection failure or with the
TypeError of the supplemental-episodes call. -/
theorem build_snapshot_error_cases (target_day : Int)
    (sleep_docs : List SleepDocument) (daily_sleep readiness : ScoreDoc)
    (e : BuildError)
    (h : build_sleep_day_snapshot target_day sleep_docs daily_sleep readiness =
      .error e) :
    e = .selectionFailure ∨ e = .typeErrorUnexpectedKwarg := by
  unfold build_sleep_day_snapshot at h
  cases hs : select_core_sleep sleep_docs target_day with
  | error e' =>
    rw [hs] at h
    cases h
    exact Or.inl (select_core_sleep_error_eq _ _ _ hs)
  | ok core =>
    rw [hs] at h
    cases h
    exact Or.inr rfl

/-
Claim theorems.
-/

/-- C1 (counterexample).  On the Scenario B inputs (core 22:00 day 0 →
06:00 day 1 with duration 28800; nap 13:00 → 13:30 of day 1 with duration
1800) the assembler does not return the claimed snapshot at all — it fails
with the TypeError of the supplemental-episodes call — and the
supplemental-episode builder itself, called with correct arguments, returns
the empty list rather than the claimed one-nap list, because the nap ends
after the core's bedtime_start. -/
theorem c1_scenarioB_counterexample :
    build_sleep_day_snapshot 1 scenarioB ⟨80⟩ ⟨75⟩ =
      .error .typeErrorUnexpectedKwarg ∧
    build_supplemental_sleep_episodes scenarioB epCore 1 = [] ∧
    ([] : List SupplementalSleepEpisode) ≠ [⟨133200, 135000, 1800⟩] :=
  ⟨rfl, by decide, by decide⟩

/-- C1 (amended).  On the Scenario B inputs, core selection picks the first
(midnight-crossing) episode; the nap ends after the core's bedtime_start, so
the supplemental-episode builder (with correct arguments) returns the empty
list; the day-based aggregate counts the nap's 1800 seconds, so core plus
supplemental is 30600; and the assembler itself raises the TypeError of the
supplemental-episodes call instead of returning a snapshot. -/
theorem c1_scenarioB_amended :
    select_core_sleep scenarioB 1 = .ok epCore ∧
    epCore.bedtime_start < epNap.bedtime_end ∧
    build_supplemental_sleep_episodes scenarioB epCore 1 = [] ∧
    compute_supplemental_sleep_seconds scenarioB epCore.id 1 = 1800 ∧
    epCore.total_sleep_duration +
      compute_supplemental_sleep_seconds scenarioB epCore.id 1 = 30600 ∧
    build_sleep_day_snapshot 1 scenarioB ⟨80⟩ ⟨75⟩ =
      .error .typeErrorUnexpectedKwarg :=
  ⟨rfl, by decide, by decide, by decide, by decide, rfl⟩

/-- C3 (counterexample).  Two midnight-crossing episodes tagged to day 10
with equal total_sleep_duration: Python max keeps the first maximal element
in input order, so the selection returns whichever tied episode comes first
and is therefore neither the earliest-bedtime episode nor independent of the
input order. -/
theorem c3_core_selection_counterexample :
    select_core_sleep [tieLate, tieEarly] 10 = .ok tieLate ∧
    select_core_sleep [tieEarly, tieLate] 10 = .ok tieEarly ∧
    tieEarly.bedtime_start < tieLate.bedtime_start ∧
    tieLate.total_sleep_duration = tieEarly.total_sleep_duration ∧
    tieLate ≠ tieEarly ∧
    tieLate.day = 10 ∧ dateOf tieLate.bedtime_start = 10 - 1 ∧
    tieEarly.day = 10 ∧ dateOf tieEarly.bedtime_start = 10 - 1 :=
  ⟨rfl, rfl, by decide, by decide, by decide, by decide, by decide,
    by decide, by decide⟩

/-- C3 (amended).  When the midnight-crossing candidate set A is nonempty,
core selection returns the first element of A, in input order, attaining the
maximal total_sleep_duration: every earlier element of A has a strictly
smaller duration and no element of A has a larger one.  Ties are therefore
broken by input position, not by earliest bedtime_start or lowest id, and
the result depends on the order of the episode list. -/
theorem c3_core_selection_amended (sleep_docs : List SleepDocument)
    (target_day : Int) (a : SleepDocument) (rest : List SleepDocument)
    (hA : sleep_docs.filter (fun d =>
      d.day == target_day && dateOf d.bedtime_start == target_day - 1) =
      a :: rest) :
    ∃ m l₁ l₂, select_core_sleep sleep_docs target_day = .ok m ∧
      a :: rest = l₁ ++ m :: l₂ ∧
      (∀ y ∈ l₁, y.total_sleep_duration < m.total_sleep_duration) ∧
      (∀ y ∈ a :: rest, y.total_sleep_duration ≤ m.total_sleep_duration) := by
  obtain ⟨m, l₁, l₂, hm, hdec, hlt, hle⟩ :=
    pyMaxBy_first_max (fun d => d.total_sleep_duration) a rest
  refine ⟨m, l₁, l₂, ?_, hdec, hlt, hle⟩
  unfold select_core_sleep
  rw [hA, hm]

/-- C3 (witness).  The amended selection rule applied to the concrete tied
window [tieLate, tieEarly]. -/
theorem c3_core_selection_witness :
    ∃ m l₁ l₂, select_core_sleep [tieLate, tieEarly] 10 = .ok m ∧
      tieLate :: [tieEarly] = l₁ ++ m :: l₂ ∧
      (∀ y ∈ l₁, y.total_sleep_duration < m.total_sleep_duration) ∧
      (∀ y ∈ tieLate :: [tieEarly],
        y.total_sleep_duration ≤ m.total_sleep_duration) :=
  c3_core_selection_amended [tieLate, tieEarly] 10 tieLate [tieEarly] rfl

/-- C6 (code bug).  The timeline-invariant block as written raises exactly
when delta = last segment end - night_end is < 0 or ≥ 300 (first conjunct),
accepts the Scenario C delta of 270 seconds and rejects the delta of 301
seconds; but the assembler raises the TypeError of the earlier
supplemental-episodes call on every selectable window, so this check is
unreachable in build_sleep_day_snapshot. -/
theorem c6_timeline_invariant_code_bug :
    (∀ (night_end : Int) (tl : SleepStageTimeline) (seg : SleepStageSegment),
      tl.segments.getLast? = some seg →
      (timeline_invariant_check night_end (some tl) = true ↔
        (seg.stop - night_end < 0 ∨ 300 ≤ seg.stop - night_end))) ∧
    timeline_invariant_check epDelta270.bedtime_end
      (build_sleep_stage_timeline epDelta270) = false ∧
    timeline_invariant_check epDelta301.bedtime_end
      (build_sleep_stage_timeline epDelta301) = true ∧
    build_sleep_day_snapshot 1 [epDelta301] ⟨80⟩ ⟨75⟩ =
      .error .typeErrorUnexpectedKwarg := by
  refine ⟨?_, by decide, by decide, rfl⟩
  intro night_end tl seg hlast
  have h1 : timeline_invariant_check night_end (some tl) =
      (match tl.segments.getLast? with
       | none => false
       | some seg =>
         decide (seg.stop - night_end < 0) ||
           decide (300 ≤ seg.stop - night_end)) := rfl
  rw [h1, hlast]
  simp only [Bool.or_eq_true, decide_eq_true_eq]

/-- C6 (witness).  The invariant characterization applied to the concrete
Scenario C timeline with delta 301. -/
theorem c6_timeline_invariant_witness :
    timeline_invariant_check 80099
        (some ⟨300, [⟨79200, 80400, .deep⟩]⟩) = true ↔
      ((⟨79200, 80400, .deep⟩ : SleepStageSegment).stop - 80099 < 0 ∨
        300 ≤ (⟨79200, 80400, .deep⟩ : SleepStageSegment).stop - 80099) :=
  c6_timeline_invariant_code_bug.1 80099 ⟨300, [⟨79200, 80400, .deep⟩]⟩
    ⟨79200, 80400, .deep⟩ rfl

/-- C9 (code bug).  The percentage expressions as written return `None` for
every non-positive denominator and the rounded quotient only for a positive
one (so the division is never formed with a non-positive denominator), with
the concrete Scenario B core giving 25 % rem and 20 % deep; but the
assembler raises the TypeError of the earlier supplemental-episodes call on
every selectable window, so these expressions are unreachable in
build_sleep_day_snapshot. -/
theorem c9_percentage_guard_code_bug :
    (∀ core_total rem_seconds deep_seconds : Int, core_total ≤ 0 →
      snapshot_rem_deep_pct core_total rem_seconds deep_seconds =
        (none, none)) ∧
    (∀ core_total rem_seconds deep_seconds : Int, 0 < core_total →
      snapshot_rem_deep_pct core_total rem_seconds deep_seconds =
        (some (pyRoundDiv (100 * rem_seconds) core_total),
         some (pyRoundDiv (100 * deep_seconds) core_total))) ∧
    snapshot_rem_deep_pct 0 7200 5760 = (none, none) ∧
    snapshot_rem_deep_pct 28800 7200 5760 = (some 25, some 20) ∧
    build_sleep_day_snapshot 1 [epCore] ⟨82⟩ ⟨76⟩ =
      .error .typeErrorUnexpectedKwarg := by
  refine ⟨?_, ?_, by decide, by decide, rfl⟩
  · intro ct r dp h
    unfold snapshot_rem_deep_pct
    rw [if_neg (not_lt.mpr h), if_neg (not_lt.mpr h)]
  · intro ct r dp h
    unfold snapshot_rem_deep_pct
    rw [if_pos h, if_pos h]

/-- C9 (witness).  The guard applied at a non-positive and at a positive
denominator. -/
theorem c9_percentage_guard_witness :
    snapshot_rem_deep_pct (-5) 1 2 = (none, none) ∧
    snapshot_rem_deep_pct 4 1 1 =
      (some (pyRoundDiv (100 * 1) 4), some (pyRoundDiv (100 * 1) 4)) :=
  ⟨c9_percentage_guard_code_bug.1 (-5) 1 2 (by decide),
   c9_percentage_guard_code_bug.2.1 4 1 1 (by decide)⟩

/-- C10 (code bug).  A nonempty stage string with no recognized code yields
a timeline object with resolution 300 and no segments (not the `None`
absence), and the invariant block as written skips an empty-segment
timeline; but the assembler raises the TypeError of the earlier
supplemental-episodes call, so it never reaches that skip. -/
theorem c10_empty_timeline_code_bug :
    (∀ core : SleepDocument, core.sleep_phase_5_min ≠ "" →
      (∀ c ∈ core.sleep_phase_5_min.toList, SLEEP_STAGE_MAP c = none) →
      build_sleep_stage_timeline core = some ⟨300, []⟩) ∧
    build_sleep_stage_timeline epUnrec = some ⟨300, []⟩ ∧
    build_sleep_stage_timeline epUnrec ≠ none ∧
    timeline_invariant_check epUnrec.bedtime_end (some ⟨300, []⟩) = false ∧
    build_sleep_day_snapshot 1 [epUnrec] ⟨60⟩ ⟨61⟩ =
      .error .typeErrorUnexpectedKwarg := by
  refine ⟨?_, by decide, by decide, by decide, rfl⟩
  intro core hne hunrec
  unfold build_sleep_stage_timeline
  rw [if_neg hne, timelineLoop_all_unrec_nil core.bedtime_start _ 0 hunrec]

/-- C10 (witness).  The empty-timeline rule applied to the concrete
stage string "xyz". -/
theorem c10_empty_timeline_witness :
    build_sleep_stage_timeline epUnrec = some ⟨300, []⟩ :=
  c10_empty_timeline_code_bug.1 epUnrec (by decide) (by decide)

/-- C7 (confirmed).  With no episode tagged to target_day, core selection
fails with the selection failure (never a partial result); with no
midnight-crossing episode but a nonempty same-day set, it returns a same-day
episode of maximal total_sleep_duration. -/
theorem c7_selection_failure_confirmed (sleep_docs : List SleepDocument)
    (target_day : Int) :
    (sleep_docs.filter (fun d => d.day == target_day) = [] →
      select_core_sleep sleep_docs target_day = .error .selectionFailure) ∧
    (∀ b rest, sleep_docs.filter (fun d =>
        d.day == target_day && dateOf d.bedtime_start == target_day - 1) = [] →
      sleep_docs.filter (fun d => d.day == target_day) = b :: rest →
      ∃ m, select_core_sleep sleep_docs target_day = .ok m ∧ m ∈ b :: rest ∧
        ∀ y ∈ b :: rest,
          y.total_sleep_duration ≤ m.total_sleep_duration) := by
  constructor
  · intro hB
    have hA : sleep_docs.filter (fun d =>
        d.day == target_day && dateOf d.bedtime_start == target_day - 1) = [] := by
      rw [List.filter_eq_nil_iff] at hB ⊢
      intro d hd hcontra
      simp only [Bool.and_eq_true] at hcontra
      exact hB d hd hcontra.1
    unfold select_core_sleep
    rw [hA, hB]
    rfl
  · intro b rest hA hB
    obtain ⟨m, l₁, l₂, hm, hdec, hlt, hle⟩ :=
      pyMaxBy_first_max (fun d => d.total_sleep_duration) b rest
    refine ⟨m, ?_, ?_, hle⟩
    · unfold select_core_sleep
      rw [hA, hB, hm]
      rfl
    · rw [hdec]
      exact List.mem_append_right l₁ (List.mem_cons_self m l₂)

/-- C7 (witness).  The failure rule on an empty window and the same-day
fallback on a one-episode day-5 window. -/
theorem c7_selection_failure_witness :
    select_core_sleep [] 5 = .error .selectionFailure ∧
    ∃ m, select_core_sleep [sameDayOnly] 5 = .ok m ∧ m ∈ [sameDayOnly] ∧
      ∀ y ∈ [sameDayOnly],
        y.total_sleep_duration ≤ m.total_sleep_duration :=
  ⟨(c7_selection_failure_confirmed [] 5).1 rfl,
   (c7_selection_failure_confirmed [sameDayOnly] 5).2 sameDayOnly [] rfl rfl⟩

/-- First element of a nonempty chained segment list, via head?. -/
theorem segsChain_head? {a b : Int} {l : List SleepStageSegment}
    (h : segsChain a l b) (hne : l ≠ []) :
    ∃ s, l.head? = some s ∧ s.start = a := by
  cases l with
  | nil => exact absurd rfl hne
  | cons s rest => exact ⟨s, rfl, h.1⟩

/-- Last element of a nonempty chained segment list, via getLast?. -/
theorem segsChain_getLast? {a b : Int} {l : List SleepStageSegment}
    (h : segsChain a l b) (hne : l ≠ []) :
    ∃ s, l.getLast? = some s ∧ s.stop = b :=
  ⟨l.getLast hne, List.getLast?_eq_getLast l hne,
    segsChain_getLast l a b h hne⟩

/-- C8 (confirmed).  For a nonempty stage string of recognized codes only,
the built timeline exists with resolution 300, its segments chain without
gap or overlap from bedtime_start to bedtime_start + 300 × length (so they
are ordered and contiguous, the first starting at bedtime_start), adjacent
segments meet exactly, the last segment ends at bedtime_start + 300 ×
length, and the segment durations sum to 300 × length. -/
theorem c8_timeline_totality_confirmed (core : SleepDocument)
    (hne : core.sleep_phase_5_min ≠ "")
    (hrec : ∀ c ∈ core.sleep_phase_5_min.toList, (SLEEP_STAGE_MAP c).isSome) :
    ∃ tl, build_sleep_stage_timeline core = some tl ∧
      tl.resolution_seconds = 300 ∧
      segsChain core.bedtime_start tl.segments
        (core.bedtime_start +
          300 * (core.sleep_phase_5_min.toList.length : Int)) ∧
      tl.segments.Chain' (fun s t => s.stop = t.start) ∧
      (∃ s, tl.segments.head? = some s ∧ s.start = core.bedtime_start) ∧
      (∃ s, tl.segments.getLast? = some s ∧ s.stop =
        core.bedtime_start +
          300 * (core.sleep_phase_5_min.toList.length : Int)) ∧
      (tl.segments.map fun s => s.stop - s.start).sum =
        300 * (core.sleep_phase_5_min.toList.length : Int) := by
  have hlist : core.sleep_phase_5_min.toList ≠ [] :=
    toList_ne_nil_of_ne_empty _ hne
  have hchain : segsChain core.bedtime_start
      (timelineLoop core.bedtime_start core.sleep_phase_5_min.toList 0 none)
      (core.bedtime_start +
        300 * (core.sleep_phase_5_min.toList.length : Int)) := by
    cases hcr : core.sleep_phase_5_min.toList with
    | nil => exact absurd hcr hlist
    | cons c rest =>
      have hc : (SLEEP_STAGE_MAP c).isSome :=
        hrec c (by rw [hcr]; exact List.mem_cons_self c rest)
      obtain ⟨stage, hmap⟩ := Option.isSome_iff_exists.mp hc
      have hloop : timelineLoop core.bedtime_start (c :: rest) 0 none =
          timelineLoop core.bedtime_start rest 1
            (some (stage, core.bedtime_start)) := by
        simp [timelineLoop, hmap]
      rw [hloop]
      have h0 := timelineLoop_chain core.bedtime_start rest 1 stage
        core.bedtime_start
      have hb : core.bedtime_start + 300 * (((1 : Nat) : Int) + rest.length) =
          core.bedtime_start + 300 * ((c :: rest).length : Int) := by
        push_cast [List.length_cons]
        ring
      rwa [hb] at h0
  have hab : core.bedtime_start ≠
      core.bedtime_start +
        300 * (core.sleep_phase_5_min.toList.length : Int) := by
    have h1 : 0 < core.sleep_phase_5_min.toList.length :=
      List.length_pos.mpr hlist
    have h2 : (0 : Int) < core.sleep_phase_5_min.toList.length := by
      exact_mod_cast h1
    omega
  have hnil := segsChain_ne_nil hchain hab
  refine ⟨⟨300, timelineLoop core.bedtime_start
      core.sleep_phase_5_min.toList 0 none⟩, ?_, rfl, hchain,
    segsChain_chain' _ _ _ hchain, segsChain_head? hchain hnil,
    segsChain_getLast? hchain hnil, ?_⟩
  · unfold build_sleep_stage_timeline
    rw [if_neg hne]
  · rw [segsChain_sum _ _ _ hchain]
    ring

/-- C8 (witness).  The totality properties instantiated on the concrete
stage string "1111222233334444" anchored at 79200. -/
theorem c8_timeline_totality_witness :
    ∃ tl, build_sleep_stage_timeline epStages = some tl ∧
      tl.resolution_seconds = 300 ∧
      segsChain epStages.bedtime_start tl.segments
        (epStages.bedtime_start +
          300 * (epStages.sleep_phase_5_min.toList.length : Int)) ∧
      tl.segments.Chain' (fun s t => s.stop = t.start) ∧
      (∃ s, tl.segments.head? = some s ∧ s.start = epStages.bedtime_start) ∧
      (∃ s, tl.segments.getLast? = some s ∧ s.stop =
        epStages.bedtime_start +
          300 * (epStages.sleep_phase_5_min.toList.length : Int)) ∧
      (tl.segments.map fun s => s.stop - s.start).sum =
        300 * (epStages.sleep_phase_5_min.toList.length : Int) :=
  c8_timeline_totality_confirmed epStages (by decide) (by decide)

/-- C4 (counterexample).  For the stage string "1x1" anchored at 79200 the
middle character is unrecognized, yet the single produced segment
[79200, 80100) spans all three buckets, including bucket 1 — the skipped
character's bucket — refuting "no produced segment covers a skipped
character's bucket". -/
theorem c4_skipped_codes_counterexample :
    build_sleep_stage_timeline epSkip =
      some ⟨300, [⟨79200, 80100, .deep⟩]⟩ ∧
    SLEEP_STAGE_MAP 'x' = none ∧
    epSkip.sleep_phase_5_min.toList.get ⟨1, by decide⟩ = 'x' ∧
    coversBucket epSkip.bedtime_start 1 ⟨79200, 80100, .deep⟩ := by
  refine ⟨by decide, by decide, by decide, by decide⟩

/-- C4 (amended).  Unrecognized characters open no segment and do not shift
any timestamp: every produced segment starts at bedtime_start + 300 × k for
the absolute index k of a recognized character of the segment's stage, and,
as soon as one recognized character exists, the last segment still ends at
bedtime_start + 300 × (string length) — one bucket advanced per character,
skipped ones included.  A produced segment may however cover a skipped
character's bucket, as the counterexample shows. -/
theorem c4_skipped_codes_amended (core : SleepDocument)
    (tl : SleepStageTimeline)
    (htl : build_sleep_stage_timeline core = some tl) :
    (∀ seg ∈ tl.segments, ∃ k,
      ∃ hk : k < core.sleep_phase_5_min.toList.length,
      seg.start = core.bedtime_start + 300 * (k : Int) ∧
      SLEEP_STAGE_MAP (core.sleep_phase_5_min.toList.get ⟨k, hk⟩) =
        some seg.stage) ∧
    ((∃ c ∈ core.sleep_phase_5_min.toList, (SLEEP_STAGE_MAP c).isSome) →
      ∃ s, tl.segments.getLast? = some s ∧
        s.stop = core.bedtime_start +
          300 * (core.sleep_phase_5_min.toList.length : Int)) := by
  unfold build_sleep_stage_timeline at htl
  by_cases hs : core.sleep_phase_5_min = ""
  · rw [if_pos hs] at htl
    cases htl
  · rw [if_neg hs] at htl
    have htl' : tl = ⟨300, timelineLoop core.bedtime_start
        core.sleep_phase_5_min.toList 0 none⟩ := (Option.some.inj htl).symm
    subst htl'
    constructor
    · intro seg hseg
      rcases timelineLoop_seg_start core.bedtime_start _ 0 none seg hseg with
        ⟨k, hk, h1, h2⟩ | ⟨st, s0, hcur, _, _⟩
      · refine ⟨k, hk, ?_, h2⟩
        rw [h1]
        push_cast
        ring
      · cases hcur
    · intro hexists
      obtain ⟨j, hj, hchain⟩ :=
        timelineLoop_none_chain core.bedtime_start _ 0 hexists
      have hab : core.bedtime_start + 300 * (((0 : Nat) : Int) + j) ≠
          core.bedtime_start + 300 * (((0 : Nat) : Int) +
            core.sleep_phase_5_min.toList.length) := by
        have hj' : (j : Int) < core.sleep_phase_5_min.toList.length := by
          exact_mod_cast hj
        simp only [Nat.cast_zero, zero_add]
        omega
      have hnil := segsChain_ne_nil hchain hab
      obtain ⟨s, hlast, hstop⟩ := segsChain_getLast? hchain hnil
      refine ⟨s, hlast, ?_⟩
      rw [hstop]
      push_cast
      ring

/-- C4 (witness).  The amended rule applied to the concrete stage string
"1x1": the last segment closes at 79200 + 3 × 300 even though the middle
bucket's character was skipped. -/
theorem c4_skipped_codes_witness :
    ∃ s, (⟨300, [⟨79200, 80100, .deep⟩]⟩ :
        SleepStageTimeline).segments.getLast? = some s ∧
      s.stop = epSkip.bedtime_start +
        300 * (epSkip.sleep_phase_5_min.toList.length : Int) :=
  (c4_skipped_codes_amended epSkip ⟨300, [⟨79200, 80100, .deep⟩]⟩
    (by decide)).2 ⟨'1', by decide, by decide⟩

/-- C5 (counterexample).  A sleep-score stream yielding two documents — not
exactly one — is not fatal as MissingScoreDocument: the provider silently
keeps the last document and proceeds (here failing later with the unrelated
TypeError of the assembler), refuting the "if and only if exactly one". -/
theorem c5_missing_score_counterexample :
    get_snapshot 1 scenarioB [⟨80⟩, ⟨81⟩] [⟨75⟩] =
      .error .typeErrorUnexpectedKwarg ∧
    BuildError.typeErrorUnexpectedKwarg ≠ .missingSleepScore ∧
    BuildError.typeErrorUnexpectedKwarg ≠ .missingReadinessScore ∧
    ([⟨80⟩, ⟨81⟩] : List ScoreDoc).length ≠ 1 :=
  ⟨rfl, by decide, by decide, by decide⟩

/-- C5 (amended).  For a nonempty episode window, the provider fails with a
missing-score error exactly when the sleep-score stream or the
readiness-score stream yields zero documents; a stream with two or more
documents is silently accepted with its last document used. -/
theorem c5_missing_score_amended (target_day : Int)
    (sleep_docs : List SleepDocument)
    (sleep_score_docs readiness_docs : List ScoreDoc)
    (hdocs : sleep_docs ≠ []) :
    (∃ e, get_snapshot target_day sleep_docs sleep_score_docs
        readiness_docs = .error e ∧
      (e = .missingSleepScore ∨ e = .missingReadinessScore)) ↔
      (sleep_score_docs = [] ∨ readiness_docs = []) := by
  unfold get_snapshot
  rw [if_neg hdocs]
  cases hs : sleep_score_docs.getLast? with
  | none =>
    have h1 : sleep_score_docs = [] := List.getLast?_eq_none_iff.mp hs
    constructor
    · intro _
      exact Or.inl h1
    · intro _
      exact ⟨.missingSleepScore, rfl, Or.inl rfl⟩
  | some ds =>
    have h1 : sleep_score_docs ≠ [] := by
      intro h
      rw [h] at hs
      cases hs
    cases hr : readiness_docs.getLast? with
    | none =>
      have h2 : readiness_docs = [] := List.getLast?_eq_none_iff.mp hr
      exact ⟨fun _ => Or.inr h2,
        fun _ => ⟨.missingReadinessScore, rfl, Or.inr rfl⟩⟩
    | some rs =>
      have h2 : readiness_docs ≠ [] := by
        intro h
        rw [h] at hr
        cases hr
      constructor
      · rintro ⟨e, he, hor⟩
        exfalso
        have he2 : Except.map some
            (build_sleep_day_snapshot target_day sleep_docs ds rs) =
            Except.error e := he
        cases hb : build_sleep_day_snapshot target_day sleep_docs ds rs with
        | ok s =>
          rw [hb] at he2
          cases he2
        | error e' =>
          rw [hb] at he2
          have he' : e' = e := by
            simpa [Except.map] using he2
          rcases build_snapshot_error_cases _ _ _ _ _ hb with h' | h' <;>
            rcases hor with h'' | h'' <;> subst he' <;> simp_all
      · rintro (h | h)
        · exact absurd h h1
        · exact absurd h h2

/-- C5 (witness).  The amended rule on a concrete empty sleep-score stream
with a nonempty window. -/
theorem c5_missing_score_witness :
    (∃ e, get_snapshot 1 scenarioB [] [⟨75⟩] = .error e ∧
        (e = .missingSleepScore ∨ e = .missingReadinessScore)) ↔
      (([] : List ScoreDoc) = [] ∨ ([⟨75⟩] : List ScoreDoc) = []) :=
  c5_missing_score_amended 1 scenarioB [] [⟨75⟩] (by decide)

/-- C2 (counterexample).  On the Scenario B window the day-based aggregate
counts the nap's 1800 seconds while the supplemental episode list is empty
(the nap ends after the core's bedtime_start), so the aggregate does not
equal the sum over the episode list. -/
theorem c2_supplemental_sum_counterexample :
    compute_supplemental_sleep_seconds scenarioB epCore.id 1 = 1800 ∧
    ((build_supplemental_sleep_episodes scenarioB epCore 1).map
      fun e => e.duration_seconds).sum = 0 ∧
    (1800 : Int) ≠ 0 :=
  ⟨by decide, by decide, by decide⟩

/-- C2 (amended).  The snapshot aggregate is the day-based sum: the sum of
the durations of the episodes tagged to target_day, other than the core,
with positive duration.  It equals the sum over the supplemental episode
list only when the day-tag predicate and the episode-list guards pick
exactly the same episodes — which Scenario-B-type inputs violate. -/
theorem c2_supplemental_sum_amended :
    (∀ (sleep_docs : List SleepDocument) (core_sleep_id : String)
        (target_day : Int),
      compute_supplemental_sleep_seconds sleep_docs core_sleep_id
          target_day =
        supplementalSecondsOfDayTag sleep_docs core_sleep_id target_day) ∧
    (∀ (sleep_docs : List SleepDocument) (core_sleep : SleepDocument)
        (target_day : Int),
      (∀ d ∈ sleep_docs, (dayTagQualifies d core_sleep.id target_day ↔
        supplementalQualifies d core_sleep sleep_docs)) →
      compute_supplemental_sleep_seconds sleep_docs core_sleep.id
          target_day =
        ((build_supplemental_sleep_episodes sleep_docs core_sleep
            target_day).map fun e => e.duration_seconds).sum) := by
  refine ⟨compute_eq_dayTagSum, ?_⟩
  intro docs core day hiff
  have hperm : (build_supplemental_sleep_episodes docs core day).Perm
      (docs.filterMap (suppKeep core (previous_core_sleep_end core docs))) := by
    unfold build_supplemental_sleep_episodes
    exact pySortByStart_perm _
  have hsum := (hperm.map fun e => e.duration_seconds).sum_eq
  rw [hsum, filterMap_suppKeep_sum core docs day docs hiff,
    compute_eq_dayTagSum]

/-- C2 (witness).  The agreement case on a concrete window whose only
non-core episode (an afternoon-before nap tagged to day 1) qualifies under
both predicates: aggregate and episode-list sum coincide. -/
theorem c2_supplemental_sum_witness :
    compute_supplemental_sleep_seconds [epCore, preNap] epCore.id 1 =
      ((build_supplemental_sleep_episodes [epCore, preNap] epCore 1).map
        fun e => e.duration_seconds).sum :=
  c2_supplemental_sum_amended.2 [epCore, preNap] epCore 1 (by
    have hprev : previous_core_sleep_end epCore [epCore, preNap] = none := by
      decide
    intro d hd
    rcases List.mem_cons.mp hd with rfl | hd
    · constructor
      · rintro ⟨_, hne, _⟩
        exact absurd rfl hne
      · rintro ⟨hne, _⟩
        exact absurd rfl hne
    · rcases List.mem_singleton.mp hd with rfl
      constructor
      · intro _
        refine ⟨by decide, by decide, by decide, ?_⟩
        intro p hp
        rw [hprev] at hp
        cases hp
      · intro _
        exact ⟨by decide, by decide, by decide⟩)
